import Mathlib

/-!
Verification development for the `mmpmod` microactivity classification engine
(`microactivity_detector.py`).  The per-frame classifier, the glove region
fusion, the glove/object contact metric and the five-frame window aggregation
are shallowly embedded below.  Detection confidences, bounding-box
coordinates and IoU values are modelled over `ℚ` (the source computes with
floats; the arithmetic involved is exact rational arithmetic except for
square roots).  The image diagonal, the normalized center distances and the
population standard deviation of the window aggregator involve square roots
and are modelled over `ℝ` with `Real.sqrt`.
-/

namespace Mmpmod

/-- A binary segmentation mask, modelled as the finite set of its nonzero
pixels.  In the source a mask is a `uint8` array produced by thresholding
(`(m > 0.5).astype(np.uint8) * 255`); `cv2.bitwise_or` is set union,
`cv2.bitwise_and` is set intersection and `np.count_nonzero` is cardinality. -/
abbrev Mask := Finset (ℕ × ℕ)

/-- Axis-aligned bounding box in `xyxy` form, as in `res.boxes.xyxy`. -/
structure Box where
  x1 : ℚ
  y1 : ℚ
  x2 : ℚ
  y2 : ℚ
deriving DecidableEq

/-- One object instance reported by the detector for a single frame:
raw class name (`model.names[i]`), confidence (`res.boxes.conf`),
box (`res.boxes.xyxy`) and thresholded segmentation mask (`res.masks.data`). -/
structure Detection where
  name : String
  conf : ℚ
  box : Box
  mask : Mask
deriving DecidableEq

/-- The detector output for one frame, as consumed by
`_process_single_frame`: the image shape (`H, W, _ = frame.shape`) and the
detection list.  `dets = none` models `res.masks is None` (no segmentation
information at all for the frame); `dets = some l` models the aligned
`cls/boxes/masks/conf` arrays. -/
structure YoloFrame where
  W : ℕ
  H : ℕ
  dets : Option (List Detection)
deriving DecidableEq

/-- The dictionary returned by `_process_single_frame`. -/
structure FrameResult where
  activity : String
  confidence : ℚ
deriving DecidableEq

/-- The dictionary returned by `infer_frames`.  Its confidence is real
because the window aggregation subtracts a population standard deviation. -/
structure WindowResult where
  activity : String
  confidence : ℝ

/-- `self.NAME_SYNONYMS` from `MicroactivityDetector.__init__`, in source
order: canonical category paired with its raw synonyms. -/
def NAME_SYNONYMS : List (String × List String) :=
  [("syringe", ["white and blue syringe", "syringe", "blue-white syringe"]),
   ("gloves", ["white gloves", "gloves"]),
   ("training arm", ["orange arm", "training arm", "arm"]),
   ("rubber band", ["yellow rubber band", "rubber band", "tourniquet"]),
   ("disinfectant wipe",
    ["disinfectant wipe", "white wipe", "wipe", "sponge",
     "gauze", "cotton", "cotton pad", "alcohol pad",
     "swab", "swab pad", "pad", "towel"])]

/-- Python's `str.lower()` as used on the detector class names (all ASCII):
character-wise lowercasing.  (Defined by a structural map so concrete values
reduce; Lean's own `String.toLower` is the same map defined by well-founded
recursion on byte positions.) -/
def str_lower (s : String) : String := ⟨s.data.map Char.toLower⟩

/-- The flattened synonym table `self.raw2canon`
(`{s.lower(): canon for canon, syns in NAME_SYNONYMS.items() for s in syns}`).
The python dict is built left to right with last-registered-wins semantics;
the table has no duplicate raw names, so a first-match lookup over the same
pairs is equivalent. -/
def raw2canon_pairs : List (String × String) :=
  (NAME_SYNONYMS.map (fun p => p.2.map (fun s => (str_lower s, p.1)))).flatten

/-- `self.raw2canon.get(cname, cname)`: canonicalize a raw class name,
returning the input unchanged when unmapped. -/
def raw2canon (s : String) : String :=
  match raw2canon_pairs.find? (fun p => p.1 == s) with
  | some p => p.2
  | none => s

/-- The canonical name of one detection
(`cname = self.raw2canon.get(cname, cname)` applied to the lowercased raw
name, `names = [self.model.names[i].lower() for i in cls_ids]`). -/
def canon_of (d : Detection) : String := raw2canon (str_lower d.name)

/-- The detections of one canonical category, in detector output order
(the `mask_by_class` / `box_by_class` / `conf_by_class` grouping loop
appends in iteration order, which a stable filter reproduces). -/
def bucket (ds : List Detection) (c : String) : List Detection :=
  ds.filter (fun d => canon_of d == c)

/-- `mask_by_class.get(c, [])`. -/
def bucket_masks (ds : List Detection) (c : String) : List Mask :=
  (bucket ds c).map (fun d => d.mask)

/-- `box_by_class.get(c, [])`. -/
def bucket_boxes (ds : List Detection) (c : String) : List Box :=
  (bucket ds c).map (fun d => d.box)

/-- `conf_by_class.get(c, [])`. -/
def bucket_confs (ds : List Detection) (c : String) : List ℚ :=
  (bucket ds c).map (fun d => d.conf)

/-- `compute_iou`: bounding box IoU with the source's `1e-6` epsilon and its
`inter <= 0` early return. -/
def compute_iou (a b : Box) : ℚ :=
  let xA := max a.x1 b.x1
  let yA := max a.y1 b.y1
  let xB := min a.x2 b.x2
  let yB := min a.y2 b.y2
  let inter := max 0 (xB - xA) * max 0 (yB - yA)
  if inter ≤ 0 then 0
  else
    let areaA := (a.x2 - a.x1) * (a.y2 - a.y1)
    let areaB := (b.x2 - b.x1) * (b.y2 - b.y1)
    inter / (areaA + areaB - inter + 1 / 1000000)

/-- `bbox_center`: bounding box center coordinates. -/
def bbox_center (b : Box) : ℚ × ℚ :=
  ((b.x1 + b.x2) * (1 / 2), (b.y1 + b.y2) * (1 / 2))

/-- `fused_iou`: weighted mask+box IoU with `alpha = 0.7`.  The mask part is
`0` when either mask is absent or the intersection is empty, else
intersection count over union count with the `1e-6` epsilon. -/
def fused_iou (mask_a mask_b : Option Mask) (box_a box_b : Box) : ℚ :=
  let alpha : ℚ := 7 / 10
  let iou_mask : ℚ :=
    match mask_a, mask_b with
    | some ma, some mb =>
        let inter_area := (ma ∩ mb).card
        if inter_area = 0 then 0
        else
          let union_area := ma.card + mb.card - inter_area
          (inter_area : ℚ) / ((union_area : ℚ) + 1 / 1000000)
    | _, _ => 0
  alpha * iou_mask + (1 - alpha) * compute_iou box_a box_b

/-- `np.mean` of a rational list (the source only applies it to nonempty
lists; Lean's total division gives `0` on the empty list). -/
def listMean (l : List ℚ) : ℚ := l.sum / l.length

/-- `np.min` of a nonempty list of reals (the source only applies it to
nonempty lists; the `[]` branch is an arbitrary total-function default). -/
def minListR (l : List ℝ) : ℝ :=
  match l with
  | [] => 1
  | x :: xs => xs.foldl min x

/-- `img_diag = (W ** 2 + H ** 2) ** 0.5`. -/
noncomputable def img_diag (W H : ℕ) : ℝ :=
  Real.sqrt ((W : ℝ) ^ 2 + (H : ℝ) ^ 2)

/-- The per-target normalized center distance computed inside `avg_contact`:
`((g_cx - bx)**2 + (g_cy - by)**2)**0.5 / (img_diag + 1e-6)`. -/
noncomputable def center_dist (gb b : Box) (imgDiag : ℝ) : ℝ :=
  let g := bbox_center gb
  let c := bbox_center b
  Real.sqrt (((g.1 - c.1 : ℚ) : ℝ) ^ 2 + ((g.2 - c.2 : ℚ) : ℝ) ^ 2) /
    (imgDiag + 1 / 1000000)

/-- `avg_contact`: average contact metric between the fused glove region and
one category's detections.  Returns `(0.0, 1.0)` when the fused glove mask
or box is absent or the target list is empty; otherwise the mean of the
fused IoUs and the minimum of the normalized center distances over
`zip(obj_masks, obj_boxes)`. -/
noncomputable def avg_contact (glove_mask : Option Mask) (glove_box : Option Box)
    (obj_masks : List Mask) (obj_boxes : List Box) (imgDiag : ℝ) : ℚ × ℝ :=
  match glove_mask, glove_box with
  | some gm, some gb =>
      if obj_masks = [] then (0, 1)
      else
        let pairs := obj_masks.zip obj_boxes
        let ious := pairs.map (fun p => fused_iou (some gm) (some p.1) gb p.2)
        let dists := pairs.map (fun p => center_dist gb p.2 imgDiag)
        (listMean ious, minListR dists)
  | _, _ => (0, 1)

/-- The "Merge gloves" block of `_process_single_frame`: when at least two
glove detections are present, OR the first two masks and take the
component-wise min/max of the first two boxes; otherwise no fused region
(`glove_mask, glove_box = None, None`). -/
def fuse_gloves (ms : List Mask) (bs : List Box) : Option Mask × Option Box :=
  match ms, bs with
  | m0 :: m1 :: _, b0 :: b1 :: _ =>
      (some (m0 ∪ m1),
       some ⟨min b0.x1 b1.x1, min b0.y1 b1.y1, max b0.x2 b1.x2, max b0.y2 b1.y2⟩)
  | _, _ => (none, none)

/-- The fused glove region of a frame's detections. -/
def glove_fusion (ds : List Detection) : Option Mask × Option Box :=
  fuse_gloves (bucket_masks ds "gloves") (bucket_boxes ds "gloves")

/-- The contact score of the fused glove region with one category, e.g.
`iou_syr, d_syr = avg_contact(glove_mask, glove_box, SYR, SBXES)`. -/
noncomputable def contact_with (W H : ℕ) (ds : List Detection) (c : String) : ℚ × ℝ :=
  avg_contact (glove_fusion ds).1 (glove_fusion ds).2
    (bucket_masks ds c) (bucket_boxes ds c) (img_diag W H)

/-- `_mean_or_zero`. -/
def mean_or_zero (l : List ℚ) : ℚ := if l = [] then 0 else listMean l

/-- Python's builtin banker's rounding of a rational to the nearest integer
(ties to even), used by `round(x, ndigits)`. -/
def round_half_even (x : ℚ) : ℤ :=
  let f := ⌊x⌋
  if x - f < 1 / 2 then f
  else if 1 / 2 < x - f then f + 1
  else if 2 ∣ f then f else f + 1

/-- Python's `round(x, n)` on rationals. -/
def py_round (x : ℚ) (n : ℕ) : ℚ :=
  (round_half_even (x * 10 ^ n) : ℚ) / 10 ^ n

/-- Banker's rounding over `ℝ` (same definition as `round_half_even`). -/
noncomputable def round_half_even_R (x : ℝ) : ℤ :=
  let f := ⌊x⌋
  if x - f < 1 / 2 then f
  else if 1 / 2 < x - f then f + 1
  else if 2 ∣ f then f else f + 1

/-- Python's `round(x, n)` over `ℝ`. -/
noncomputable def py_round_R (x : ℝ) (n : ℕ) : ℝ :=
  ((round_half_even_R (x * 10 ^ n) : ℤ) : ℝ) / 10 ^ n

/-- The body of `_process_single_frame` after the `res.masks is None` early
exit: bucket the detections by canonical category, fuse the glove bucket,
compute the contact scores, evaluate the ordered rule chain and aggregate
the confidence of the winning activity. -/
noncomputable def classify_dets (W H : ℕ) (ds : List Detection) : FrameResult :=
  let GLOVES := bucket_masks ds "gloves"
  let ARM := bucket_masks ds "training arm"
  let SYR := bucket_masks ds "syringe"
  let WIPE := bucket_masks ds "disinfectant wipe"
  let c_syr := contact_with W H ds "syringe"
  let c_rub := contact_with W H ds "rubber band"
  let _c_wip := contact_with W H ds "disinfectant wipe"
  let c_arm := contact_with W H ds "training arm"
  let activity :=
    if 2 ≤ GLOVES.length ∧ ARM ≠ [] ∧ SYR ≠ [] ∧
        (5 / 100 < c_syr.1 ∨ c_syr.2 < 12 / 100) then "Injection"
    else if 2 ≤ GLOVES.length ∧ ARM ≠ [] ∧
        (5 / 100 < c_rub.1 ∨ c_rub.2 < 12 / 100) ∧ SYR = [] then "Tourniquet"
    else if 2 ≤ GLOVES.length ∧ ARM ≠ [] ∧ SYR = [] ∧
        (WIPE ≠ [] ∨ 1 / 100 < c_arm.1) then "Disinfection"
    else "No clear activity"
  let conf_glv := mean_or_zero (bucket_confs ds "gloves")
  let conf_arm := mean_or_zero (bucket_confs ds "training arm")
  let conf_syr := mean_or_zero (bucket_confs ds "syringe")
  let conf_rub := mean_or_zero (bucket_confs ds "rubber band")
  let conf_wip := mean_or_zero (bucket_confs ds "disinfectant wipe")
  let conf_activity :=
    if activity = "Injection" then listMean [conf_glv, conf_arm, conf_syr]
    else if activity = "Tourniquet" then listMean [conf_glv, conf_arm, conf_rub]
    else if activity = "Disinfection" then
      (if WIPE ≠ [] then listMean [conf_glv, conf_arm, conf_wip]
       else listMean [conf_glv, conf_arm])
    else 0
  ⟨activity, py_round conf_activity 4⟩

/-- `_process_single_frame`: the sole early exit (`res.masks is None`)
returns `("No clear activity", 0.0)`; every other frame flows through
`classify_dets`. -/
noncomputable def process_single_frame (fr : YoloFrame) : FrameResult :=
  match fr.dets with
  | none => ⟨"No clear activity", 0⟩
  | some ds => classify_dets fr.W fr.H ds

/-- The "Remove empty / unclear frames" filter of `infer_frames`. -/
def valid_results (results : List FrameResult) : List FrameResult :=
  results.filter (fun r => r.activity ≠ "No clear activity")

/-- `acts`: the surviving activity votes of the window, in frame order. -/
def window_votes (results : List FrameResult) : List String :=
  (valid_results results).map (fun r => r.activity)

/-- `Counter(acts).most_common(1)[0][0]` for a fixed count function:
the element with the maximal count; on ties the first-encountered element
wins (python's `Counter` iterates keys in first-insertion order and
`heapq.nlargest` is stable). -/
def argmax_first (cnt : String → ℕ) : List String → Option String
  | [] => none
  | x :: xs =>
      match argmax_first cnt xs with
      | none => some x
      | some r => if cnt x < cnt r then some r else some x

/-- `main_act = Counter(acts).most_common(1)[0][0]`. -/
def most_common1 (l : List String) : String :=
  (argmax_first (fun a => l.count a) l).getD ""

/-- `np.std`: population standard deviation. -/
noncomputable def np_std (l : List ℚ) : ℝ :=
  Real.sqrt ((listMean (l.map (fun x => (x - listMean l) ^ 2)) : ℚ) : ℝ)

/-- The aggregation tail of `infer_frames` (after the per-frame loop):
discard "No clear activity" frames, elect the majority activity, and return
`round(clip(mean - 0.5 * std, 0, 1), 2)` over the majority's confidences. -/
noncomputable def aggregate_results (results : List FrameResult) : WindowResult :=
  if valid_results results = [] then ⟨"No detection", 0⟩
  else
    let main_act := most_common1 (window_votes results)
    let act_confs :=
      ((valid_results results).filter (fun r => r.activity = main_act)).map
        (fun r => r.confidence)
    let conf_mean : ℝ := ((listMean act_confs : ℚ) : ℝ)
    let conf_std : ℝ := np_std act_confs
    let robust_conf := conf_mean - 1 / 2 * conf_std
    let clipped := min (max robust_conf 0) 1
    ⟨main_act, py_round_R clipped 2⟩

/-- `infer_frames`: the classification entry point over a window of frames.
`if not frame_list or len(frame_list) == 0` returns `("No frames", 0.0)`;
otherwise every frame is classified and the results aggregated. -/
noncomputable def infer_frames (frames : List YoloFrame) : WindowResult :=
  if frames = [] then ⟨"No frames", 0⟩
  else aggregate_results (frames.map process_single_frame)

/-- Reduction of `process_single_frame` on a frame without masks. -/
theorem psf_none {fr : YoloFrame} (h : fr.dets = none) :
    process_single_frame fr = ⟨"No clear activity", 0⟩ := by
  simp only [process_single_frame, h]

/-- Reduction of `process_single_frame` on a frame with masks. -/
theorem psf_some {fr : YoloFrame} {ds : List Detection} (h : fr.dets = some ds) :
    process_single_frame fr = classify_dets fr.W fr.H ds := by
  simp only [process_single_frame, h]

/-- Rounding zero gives zero. -/
theorem py_round_zero (n : ℕ) : py_round 0 n = 0 := by
  have h0 : round_half_even 0 = 0 := by
    simp [round_half_even]
  simp [py_round, h0]

/-- C3: a frame whose detector output carries no masks at all classifies as
`("No clear activity", 0.0)`, and this is the sole early exit: every frame
with masks flows through the full classification body. -/
theorem spec_C3 :
    (∀ fr : YoloFrame, fr.dets = none →
      process_single_frame fr = ⟨"No clear activity", 0⟩) ∧
    (∀ (fr : YoloFrame) (ds : List Detection), fr.dets = some ds →
      process_single_frame fr = classify_dets fr.W fr.H ds) :=
  ⟨fun _ h => psf_none h, fun _ _ h => psf_some h⟩

/-- Witness for C3 at concrete frames. -/
theorem spec_C3_witness :
    process_single_frame ⟨640, 480, none⟩ = ⟨"No clear activity", 0⟩ ∧
    process_single_frame ⟨640, 480, some []⟩ = classify_dets 640 480 [] :=
  ⟨spec_C3.1 ⟨640, 480, none⟩ rfl, spec_C3.2 ⟨640, 480, some []⟩ [] rfl⟩

/-- C4: the contact metric returns exactly `(0.0, 1.0)` when the fused glove
region is absent or the target detection list is empty; this is a defined
value, not an error. -/
theorem spec_C4 :
    (∀ (gb : Option Box) (ms : List Mask) (bs : List Box) (d : ℝ),
      avg_contact none gb ms bs d = (0, 1)) ∧
    (∀ (gm : Option Mask) (gb : Option Box) (bs : List Box) (d : ℝ),
      avg_contact gm gb [] bs d = (0, 1)) := by
  constructor
  · intro gb ms bs d
    cases gb <;> rfl
  · intro gm gb bs d
    cases gm <;> cases gb <;> simp [avg_contact]

/-- C6: glove fusion uses only the first two detections in detector output
order (mask OR, box min/max), ignoring any further glove detections; fusing
boxes `[0,0,10,10]` and `[5,5,15,15]` yields the fused box `[0,0,15,15]`. -/
theorem spec_C6 :
    (∀ (m0 m1 : Mask) (ms : List Mask) (b0 b1 : Box) (bs : List Box),
      fuse_gloves (m0 :: m1 :: ms) (b0 :: b1 :: bs) =
        (some (m0 ∪ m1),
         some ⟨min b0.x1 b1.x1, min b0.y1 b1.y1,
               max b0.x2 b1.x2, max b0.y2 b1.y2⟩)) ∧
    (fuse_gloves [∅, ∅] [⟨0, 0, 10, 10⟩, ⟨5, 5, 15, 15⟩]).2 =
      some ⟨0, 0, 15, 15⟩ := by
  constructor
  · intro m0 m1 ms b0 b1 bs
    rfl
  · simp only [fuse_gloves]
    norm_num [min_def, max_def]

/-- C10: a frame whose detector output includes masks but fewer than two
glove detections classifies as `("No clear activity", 0.0)` regardless of
all other detections, because every rule requires at least two gloves. -/
theorem spec_C10 (fr : YoloFrame) (ds : List Detection) (h : fr.dets = some ds)
    (hg : (bucket ds "gloves").length < 2) :
    process_single_frame fr = ⟨"No clear activity", 0⟩ := by
  have hg' : ¬ 2 ≤ (bucket_masks ds "gloves").length := by
    simpa [bucket_masks, Nat.not_le] using hg
  rw [psf_some h]
  simp only [classify_dets]
  rw [if_neg (fun hc => hg' hc.1), if_neg (fun hc => hg' hc.1),
    if_neg (fun hc => hg' hc.1)]
  rw [if_neg (by decide : ¬ ("No clear activity" = "Injection")),
    if_neg (by decide : ¬ ("No clear activity" = "Tourniquet")),
    if_neg (by decide : ¬ ("No clear activity" = "Disinfection"))]
  rw [py_round_zero]

/-- Witness for C10: one frame with masks and a single glove detection. -/
theorem spec_C10_witness :
    process_single_frame
      ⟨640, 480, some [⟨"gloves", 1/2, ⟨0, 0, 1, 1⟩, {(0, 0)}⟩]⟩ =
      ⟨"No clear activity", 0⟩ :=
  spec_C10 _ _ rfl (by decide)

/-- C1: any frame with masks, at least two glove detections, a training-arm
detection, a syringe detection and the syringe contact condition classifies
as `Injection` and never as `Tourniquet` — the rules are an ordered decision
list and any syringe detection vetoes `Tourniquet`, even when the
rubber-band contact condition also holds. -/
theorem spec_C1 (fr : YoloFrame) (ds : List Detection) (h : fr.dets = some ds)
    (hg : 2 ≤ (bucket ds "gloves").length)
    (ha : bucket ds "training arm" ≠ [])
    (hs : bucket ds "syringe" ≠ [])
    (hc : 5 / 100 < (contact_with fr.W fr.H ds "syringe").1 ∨
          (contact_with fr.W fr.H ds "syringe").2 < 12 / 100) :
    (process_single_frame fr).activity = "Injection" ∧
    (process_single_frame fr).activity ≠ "Tourniquet" := by
  rw [psf_some h]
  have hg' : 2 ≤ (bucket_masks ds "gloves").length := by
    simpa [bucket_masks] using hg
  have ha' : bucket_masks ds "training arm" ≠ [] := by
    simpa [bucket_masks] using ha
  have hs' : bucket_masks ds "syringe" ≠ [] := by
    simpa [bucket_masks] using hs
  simp only [classify_dets]
  rw [if_pos ⟨hg', ha', hs', hc⟩]
  exact ⟨rfl, by decide⟩

/-- Detections of the C1 witness frame: two gloves, an arm, a syringe and a
rubber band, all at the same unit box with the same one-pixel mask, so both
the syringe and the rubber-band contact conditions hold. -/
def c1_dets : List Detection :=
  [⟨"gloves", 9/10, ⟨0, 0, 1, 1⟩, {(1, 2)}⟩,
   ⟨"gloves", 8/10, ⟨0, 0, 1, 1⟩, {(1, 2)}⟩,
   ⟨"training arm", 9/10, ⟨0, 0, 1, 1⟩, {(1, 2)}⟩,
   ⟨"syringe", 9/10, ⟨0, 0, 1, 1⟩, {(1, 2)}⟩,
   ⟨"rubber band", 9/10, ⟨0, 0, 1, 1⟩, {(1, 2)}⟩]

/-- The C1 witness frame. -/
def c1_frame : YoloFrame := ⟨640, 480, some c1_dets⟩

/-- `compute_iou` of the unit box with itself. -/
theorem unit_box_iou_eval :
    compute_iou ⟨0, 0, 1, 1⟩ ⟨0, 0, 1, 1⟩ = 1000000 / 1000001 := by
  simp only [compute_iou]
  norm_num [max_def, min_def]

/-- The fused IoU of the one-pixel mask and unit box with themselves. -/
theorem c1_fused_iou_eval :
    fused_iou (some {(1, 2)}) (some {(1, 2)}) ⟨0, 0, 1, 1⟩ ⟨0, 0, 1, 1⟩ =
      1000000 / 1000001 := by
  have hcard : (({(1, 2)} : Mask) ∩ {(1, 2)}).card = 1 := by decide
  have hcard1 : ({(1, 2)} : Mask).card = 1 := by decide
  unfold fused_iou
  rw [unit_box_iou_eval]
  simp only [hcard, hcard1]
  norm_num

/-- Witness for C1: the concrete frame `c1_frame` satisfies all the
hypotheses (including the rubber-band contact condition) and classifies as
`Injection`, not `Tourniquet`. -/
theorem spec_C1_witness :
    (process_single_frame c1_frame).activity = "Injection" ∧
    (process_single_frame c1_frame).activity ≠ "Tourniquet" :=
  spec_C1 c1_frame c1_dets rfl (by decide) (by decide) (by decide)
    (by
      left
      have hfusion : glove_fusion c1_dets = (some {(1, 2)}, some ⟨0, 0, 1, 1⟩) := by
        decide
      have hsm : bucket_masks c1_dets "syringe" = [{(1, 2)}] := by decide
      have hsb : bucket_boxes c1_dets "syringe" = [⟨0, 0, 1, 1⟩] := by decide
      simp only [contact_with, hfusion, hsm, hsb, avg_contact,
        List.zip_cons_cons, List.zip_nil_right, List.map_cons, List.map_nil]
      rw [if_neg (List.cons_ne_nil _ _)]
      rw [c1_fused_iou_eval]
      norm_num [listMean])

/-- C5: a classification call with zero frames returns `("No frames", 0.0)`
and a call whose per-frame results are all `"No clear activity"` returns
`("No detection", 0.0)`; both are ordinary return values. -/
theorem spec_C5 :
    (infer_frames [] = ⟨"No frames", 0⟩) ∧
    (∀ frames : List YoloFrame, frames ≠ [] →
      (∀ f ∈ frames, (process_single_frame f).activity = "No clear activity") →
      infer_frames frames = ⟨"No detection", 0⟩) := by
  constructor
  · rfl
  · intro frames hne hall
    have hvalid : valid_results (frames.map process_single_frame) = [] := by
      simp only [valid_results, List.filter_eq_nil_iff]
      intro r hr
      obtain ⟨f, hf, rfl⟩ := List.mem_map.mp hr
      simpa using hall f hf
    simp only [infer_frames, if_neg hne, aggregate_results, if_pos hvalid]

/-- Witness for C5 at a one-frame window whose frame has no masks. -/
theorem spec_C5_witness :
    infer_frames [⟨640, 480, none⟩] = ⟨"No detection", 0⟩ :=
  spec_C5.2 [⟨640, 480, none⟩] (by simp)
    (by
      intro f hf
      obtain rfl : f = ⟨640, 480, none⟩ := by simpa using hf
      rfl)

/-- `argmax_first` never returns `none` on a nonempty list. -/
theorem argmax_first_some (cnt : String → ℕ) (x : String) (xs : List String) :
    ∃ r, argmax_first cnt (x :: xs) = some r := by
  cases hxs : argmax_first cnt xs with
  | none => exact ⟨x, by simp [argmax_first, hxs]⟩
  | some r =>
      by_cases hc : cnt x < cnt r
      · exact ⟨r, by simp [argmax_first, hxs, if_pos hc]⟩
      · exact ⟨x, by simp [argmax_first, hxs, if_neg hc]⟩

/-- The element chosen by `argmax_first` is an element of the list. -/
theorem argmax_first_mem {cnt : String → ℕ} :
    ∀ {l : List String} {r : String}, argmax_first cnt l = some r → r ∈ l := by
  intro l
  induction l with
  | nil => intro r h; simp [argmax_first] at h
  | cons x xs ih =>
      intro r h
      cases hxs : argmax_first cnt xs with
      | none =>
          simp only [argmax_first, hxs] at h
          obtain rfl : x = r := by simpa using h
          exact List.mem_cons_self x xs
      | some r0 =>
          simp only [argmax_first, hxs] at h
          by_cases hc : cnt x < cnt r0
          · rw [if_pos hc] at h
            obtain rfl : r0 = r := by simpa using h
            exact List.mem_cons_of_mem x (ih hxs)
          · rw [if_neg hc] at h
            obtain rfl : x = r := by simpa using h
            exact List.mem_cons_self x xs

/-- The element chosen by `argmax_first` has a maximal count. -/
theorem argmax_first_le {cnt : String → ℕ} :
    ∀ {l : List String} {r : String}, argmax_first cnt l = some r →
      ∀ a ∈ l, cnt a ≤ cnt r := by
  intro l
  induction l with
  | nil => intro r h a ha; simp at ha
  | cons x xs ih =>
      intro r h a ha
      cases hxs : argmax_first cnt xs with
      | none =>
          have hxsnil : xs = [] := by
            cases xs with
            | nil => rfl
            | cons y ys =>
                obtain ⟨r1, hr1⟩ := argmax_first_some cnt y ys
                rw [hr1] at hxs
                exact absurd hxs (by simp)
          simp only [argmax_first, hxs] at h
          have hxr : x = r := by simpa using h
          subst hxsnil
          have har : a = x := by simpa using ha
          exact le_of_eq (by rw [har, hxr])
      | some r0 =>
          simp only [argmax_first, hxs] at h
          rcases List.mem_cons.mp ha with rfl | hmem
          · by_cases hc : cnt a < cnt r0
            · rw [if_pos hc] at h
              obtain rfl : r0 = r := by simpa using h
              exact le_of_lt hc
            · rw [if_neg hc] at h
              obtain rfl : a = r := by simpa using h
              exact le_refl _
          · have hle : cnt a ≤ cnt r0 := ih hxs a hmem
            by_cases hc : cnt x < cnt r0
            · rw [if_pos hc] at h
              obtain rfl : r0 = r := by simpa using h
              exact hle
            · rw [if_neg hc] at h
              obtain rfl : x = r := by simpa using h
              exact le_trans hle (Nat.le_of_not_lt hc)

/-- Among elements tied for the maximal count, `argmax_first` picks the one
whose first occurrence comes first. -/
theorem argmax_first_first {cnt : String → ℕ} :
    ∀ {l : List String} {r : String}, argmax_first cnt l = some r →
      ∀ a ∈ l, cnt a = cnt r → l.indexOf r ≤ l.indexOf a := by
  intro l
  induction l with
  | nil => intro r h a ha; simp at ha
  | cons x xs ih =>
      intro r h a ha hcnt
      cases hxs : argmax_first cnt xs with
      | none =>
          simp only [argmax_first, hxs] at h
          obtain rfl : x = r := by simpa using h
          simp [List.indexOf_cons_self]
      | some r0 =>
          simp only [argmax_first, hxs] at h
          by_cases hc : cnt x < cnt r0
          · rw [if_pos hc] at h
            obtain rfl : r0 = r := by simpa using h
            have hxr : x ≠ r0 := fun he => absurd hc (by rw [he]; exact lt_irrefl _)
            have hxa : x ≠ a := fun he => by
              rw [← he] at hcnt
              exact absurd hc (by rw [hcnt]; exact lt_irrefl _)
            have hamem : a ∈ xs := by
              rcases List.mem_cons.mp ha with rfl | hmem
              · exact absurd rfl hxa
              · exact hmem
            rw [List.indexOf_cons_ne _ hxr, List.indexOf_cons_ne _ hxa]
            exact Nat.succ_le_succ (ih hxs a hamem hcnt)
          · rw [if_neg hc] at h
            obtain rfl : x = r := by simpa using h
            simp [List.indexOf_cons_self]

/-- C8: on a nonempty list of surviving votes, the window activity is one of
the votes, has a maximal vote count, and among tied labels is the one first
encountered in frame order. -/
theorem spec_C8 (results : List FrameResult) (h : valid_results results ≠ []) :
    (aggregate_results results).activity ∈ window_votes results ∧
    (∀ a ∈ window_votes results,
      (window_votes results).count a ≤
        (window_votes results).count ((aggregate_results results).activity)) ∧
    (∀ a ∈ window_votes results,
      (window_votes results).count a =
        (window_votes results).count ((aggregate_results results).activity) →
      (window_votes results).indexOf ((aggregate_results results).activity) ≤
        (window_votes results).indexOf a) := by
  have hact : (aggregate_results results).activity =
      most_common1 (window_votes results) := by
    simp only [aggregate_results, if_neg h]
  rw [hact]
  cases hv : window_votes results with
  | nil =>
      exact absurd (by simpa [window_votes] using hv) h
  | cons x xs =>
      obtain ⟨r, hr⟩ := argmax_first_some (fun a => (x :: xs).count a) x xs
      have hmc : most_common1 (x :: xs) = r := by
        simp [most_common1, hr]
      rw [hmc]
      exact ⟨argmax_first_mem hr, argmax_first_le hr,
        fun a ha hcnt => argmax_first_first hr a ha hcnt⟩

/-- The C8 witness results: a one-one tie between `Tourniquet` (first
encountered) and `Injection`. -/
def c8_results : List FrameResult :=
  [⟨"Tourniquet", 1/2⟩, ⟨"Injection", 3/5⟩]

/-- The window activity of the C8 witness. -/
theorem c8_activity_eval : (aggregate_results c8_results).activity = "Tourniquet" := by
  have h : valid_results c8_results ≠ [] := by decide
  simp only [aggregate_results, if_neg h]
  decide

/-- Witness for C8: on the tied window, the chosen label's first occurrence
is no later than the tied competitor's. -/
theorem spec_C8_witness :
    (window_votes c8_results).indexOf ((aggregate_results c8_results).activity) ≤
      (window_votes c8_results).indexOf "Injection" :=
  (spec_C8 c8_results (by decide)).2.2 "Injection" (by decide)
    (by rw [c8_activity_eval]; decide)

/-- A lower bound for the running minimum of `minListR`. -/
theorem foldl_min_le (xs : List ℝ) :
    ∀ x : ℝ, xs.foldl min x ≤ x ∧ ∀ a ∈ xs, xs.foldl min x ≤ a := by
  induction xs with
  | nil => intro x; exact ⟨le_refl _, by intro a ha; simp at ha⟩
  | cons y ys ih =>
      intro x
      have h := ih (min x y)
      refine ⟨le_trans h.1 (min_le_left _ _), ?_⟩
      intro a ha
      rcases List.mem_cons.mp ha with rfl | hmem
      · exact le_trans h.1 (min_le_right _ _)
      · exact h.2 a hmem

/-- The running minimum is attained in the list or is the seed. -/
theorem foldl_min_mem (xs : List ℝ) :
    ∀ x : ℝ, xs.foldl min x = x ∨ xs.foldl min x ∈ xs := by
  induction xs with
  | nil => intro x; exact Or.inl rfl
  | cons y ys ih =>
      intro x
      rcases ih (min x y) with h | h
      · rcases min_choice x y with hm | hm
        · exact Or.inl (by rw [List.foldl_cons, h, hm])
        · exact Or.inr (by rw [List.foldl_cons, h, hm]; exact List.mem_cons_self _ _)
      · exact Or.inr (List.mem_cons_of_mem _ h)

/-- `minListR` of a nonempty list is an element of the list. -/
theorem minListR_mem {l : List ℝ} (h : l ≠ []) : minListR l ∈ l := by
  cases l with
  | nil => exact absurd rfl h
  | cons x xs =>
      have hdef : minListR (x :: xs) = xs.foldl min x := rfl
      rw [hdef]
      rcases foldl_min_mem xs x with h0 | h0
      · rw [h0]; exact List.mem_cons_self _ _
      · exact List.mem_cons_of_mem _ h0

/-- `minListR` is a lower bound of the list. -/
theorem minListR_le {l : List ℝ} {a : ℝ} (ha : a ∈ l) : minListR l ≤ a := by
  cases l with
  | nil => simp at ha
  | cons x xs =>
      rcases List.mem_cons.mp ha with rfl | hmem
      · exact (foldl_min_le xs a).1
      · exact (foldl_min_le xs x).2 a hmem

/-- `minListR` is invariant under permutation. -/
theorem minListR_perm {l l' : List ℝ} (h : l.Perm l') : minListR l = minListR l' := by
  cases l with
  | nil =>
      obtain rfl : ([] : List ℝ) = l' := h.nil_eq
      rfl
  | cons x xs =>
      have hne : (x :: xs) ≠ ([] : List ℝ) := by simp
      have hne' : l' ≠ [] := by
        intro he
        subst he
        exact hne h.symm.nil_eq.symm
      exact le_antisymm
        (minListR_le (h.mem_iff.mpr (minListR_mem hne')))
        (minListR_le (h.symm.mem_iff.mpr (minListR_mem hne)))

/-- `listMean` is invariant under permutation. -/
theorem listMean_perm {l l' : List ℚ} (h : l.Perm l') : listMean l = listMean l' := by
  simp only [listMean, h.sum_eq, h.length_eq]

/-- C9: both components of the contact score are invariant under any
permutation of the (aligned) target detection list: the mean of the fused
IoUs and the minimum of the normalized center distances are unchanged. -/
theorem spec_C9 (gm : Option Mask) (gb : Option Box) (d : ℝ)
    (ms ms' : List Mask) (bs bs' : List Box)
    (hlen : ms.length = bs.length) (hlen' : ms'.length = bs'.length)
    (hperm : (ms.zip bs).Perm (ms'.zip bs')) :
    avg_contact gm gb ms bs d = avg_contact gm gb ms' bs' d := by
  have hnil : ∀ (xs : List Mask) (ys : List Box), xs.length = ys.length →
      xs.zip ys = [] → xs = [] := by
    intro xs ys hxy hz
    cases xs with
    | nil => rfl
    | cons x xs0 =>
        cases ys with
        | nil => simp at hxy
        | cons y ys0 => simp [List.zip_cons_cons] at hz
  cases gm with
  | none => cases gb <;> rfl
  | some gmask =>
      cases gb with
      | none => rfl
      | some gbox =>
          by_cases hms : ms = []
          · have hz : ms.zip bs = [] := by rw [hms]; rfl
            have hz' : ms'.zip bs' = [] := by
              have h0 : ([] : List (Mask × Box)).Perm (ms'.zip bs') := hz ▸ hperm
              exact h0.nil_eq.symm
            have hms' : ms' = [] := hnil ms' bs' hlen' hz'
            rw [hms, hms']
            simp [avg_contact]
          · have hz : ms.zip bs ≠ [] := by
              intro hz
              exact hms (hnil ms bs hlen hz)
            have hms' : ms' ≠ [] := by
              intro he
              have hz' : ms'.zip bs' = [] := by rw [he]; rfl
              have h0 : ([] : List (Mask × Box)).Perm (ms.zip bs) :=
                hz' ▸ hperm.symm
              exact hz h0.nil_eq.symm
            simp only [avg_contact, if_neg hms, if_neg hms']
            have hmap1 := hperm.map
              (fun p => fused_iou (some gmask) (some p.1) gbox p.2)
            have hmap2 := hperm.map (fun p => center_dist gbox p.2 d)
            rw [listMean_perm hmap1, minListR_perm hmap2]

/-- Witness for C9: swapping two concrete aligned targets leaves the
contact score unchanged. -/
theorem spec_C9_witness :
    avg_contact (some {(1, 2)}) (some ⟨0, 0, 1, 1⟩)
      [{(1, 2)}, {(3, 4)}] [⟨0, 0, 1, 1⟩, ⟨2, 2, 3, 3⟩] 800 =
    avg_contact (some {(1, 2)}) (some ⟨0, 0, 1, 1⟩)
      [{(3, 4)}, {(1, 2)}] [⟨2, 2, 3, 3⟩, ⟨0, 0, 1, 1⟩] 800 :=
  spec_C9 (some {(1, 2)}) (some ⟨0, 0, 1, 1⟩) 800
    [{(1, 2)}, {(3, 4)}] [{(3, 4)}, {(1, 2)}]
    [⟨0, 0, 1, 1⟩, ⟨2, 2, 3, 3⟩] [⟨2, 2, 3, 3⟩, ⟨0, 0, 1, 1⟩]
    rfl rfl (List.Perm.swap _ _ _)

/-- C7 (amended): the frame confidence is the 4-digit rounding of the
unweighted arithmetic mean of the relevant per-category mean detection
confidences: gloves+arm+syringe for Injection, gloves+arm+rubber band for
Tourniquet, gloves+arm+wipe for Disinfection when a wipe is present and
gloves+arm otherwise, and exactly `0.0` for "No clear activity". -/
theorem spec_C7 (fr : YoloFrame) (ds : List Detection) (h : fr.dets = some ds) :
    ((process_single_frame fr).activity = "Injection" →
      (process_single_frame fr).confidence =
        py_round (listMean [mean_or_zero (bucket_confs ds "gloves"),
          mean_or_zero (bucket_confs ds "training arm"),
          mean_or_zero (bucket_confs ds "syringe")]) 4) ∧
    ((process_single_frame fr).activity = "Tourniquet" →
      (process_single_frame fr).confidence =
        py_round (listMean [mean_or_zero (bucket_confs ds "gloves"),
          mean_or_zero (bucket_confs ds "training arm"),
          mean_or_zero (bucket_confs ds "rubber band")]) 4) ∧
    ((process_single_frame fr).activity = "Disinfection" →
      (bucket ds "disinfectant wipe" ≠ [] →
        (process_single_frame fr).confidence =
          py_round (listMean [mean_or_zero (bucket_confs ds "gloves"),
            mean_or_zero (bucket_confs ds "training arm"),
            mean_or_zero (bucket_confs ds "disinfectant wipe")]) 4) ∧
      (bucket ds "disinfectant wipe" = [] →
        (process_single_frame fr).confidence =
          py_round (listMean [mean_or_zero (bucket_confs ds "gloves"),
            mean_or_zero (bucket_confs ds "training arm")]) 4)) ∧
    ((process_single_frame fr).activity = "No clear activity" →
      (process_single_frame fr).confidence = 0) := by
  rw [psf_some h]
  simp only [classify_dets]
  by_cases h1 : 2 ≤ (bucket_masks ds "gloves").length ∧
      bucket_masks ds "training arm" ≠ [] ∧ bucket_masks ds "syringe" ≠ [] ∧
      (5 / 100 < (contact_with fr.W fr.H ds "syringe").1 ∨
        (contact_with fr.W fr.H ds "syringe").2 < 12 / 100)
  · rw [if_pos h1, if_pos rfl]
    exact ⟨fun _ => rfl, fun hab => absurd hab (by decide),
      fun hab => absurd hab (by decide), fun hab => absurd hab (by decide)⟩
  · rw [if_neg h1]
    by_cases h2 : 2 ≤ (bucket_masks ds "gloves").length ∧
        bucket_masks ds "training arm" ≠ [] ∧
        (5 / 100 < (contact_with fr.W fr.H ds "rubber band").1 ∨
          (contact_with fr.W fr.H ds "rubber band").2 < 12 / 100) ∧
        bucket_masks ds "syringe" = []
    · rw [if_pos h2, if_neg (by decide : ¬ ("Tourniquet" = "Injection")),
        if_pos rfl]
      exact ⟨fun hab => absurd hab (by decide), fun _ => rfl,
        fun hab => absurd hab (by decide), fun hab => absurd hab (by decide)⟩
    · rw [if_neg h2]
      by_cases h3 : 2 ≤ (bucket_masks ds "gloves").length ∧
          bucket_masks ds "training arm" ≠ [] ∧ bucket_masks ds "syringe" = [] ∧
          (bucket_masks ds "disinfectant wipe" ≠ [] ∨
            1 / 100 < (contact_with fr.W fr.H ds "training arm").1)
      · rw [if_pos h3, if_neg (by decide : ¬ ("Disinfection" = "Injection")),
          if_neg (by decide : ¬ ("Disinfection" = "Tourniquet")), if_pos rfl]
        refine ⟨fun hab => absurd hab (by decide),
          fun hab => absurd hab (by decide), fun _ => ⟨?_, ?_⟩,
          fun hab => absurd hab (by decide)⟩
        · intro hw
          have hw' : bucket_masks ds "disinfectant wipe" ≠ [] := by
            simpa [bucket_masks] using hw
          rw [if_pos hw']
        · intro hw
          have hw' : ¬ (bucket_masks ds "disinfectant wipe" ≠ []) := by
            simp [bucket_masks, hw]
          rw [if_neg hw']
      · rw [if_neg h3,
          if_neg (by decide : ¬ ("No clear activity" = "Injection")),
          if_neg (by decide : ¬ ("No clear activity" = "Tourniquet")),
          if_neg (by decide : ¬ ("No clear activity" = "Disinfection")),
          py_round_zero]
        exact ⟨fun hab => absurd hab (by decide),
          fun hab => absurd hab (by decide),
          fun hab => absurd hab (by decide), fun _ => rfl⟩

/-- A glove detection of the C7 frame (full confidence). -/
def c7_g : Detection := ⟨"gloves", 1, ⟨0, 0, 1, 1⟩, {(1, 2)}⟩

/-- The training-arm detection of the C7 frame (full confidence). -/
def c7_a : Detection := ⟨"training arm", 1, ⟨0, 0, 1, 1⟩, {(1, 2)}⟩

/-- The syringe detection of the C7 frame (confidence `1/3`). -/
def c7_s : Detection := ⟨"syringe", 1/3, ⟨0, 0, 1, 1⟩, {(1, 2)}⟩

/-- Detections of the C7 frame: two gloves, an arm and a syringe in
contact, so the frame classifies as `Injection` with raw mean-of-means
`(1 + 1 + 1/3)/3 = 7/9`, whose 4-digit rounding is `0.7778 ≠ 7/9`. -/
def c7_dets : List Detection := [c7_g, c7_g, c7_a, c7_s]

/-- The C7 frame. -/
def c7_frame : YoloFrame := ⟨640, 480, some c7_dets⟩

/-- `_mean_or_zero` on a nonempty list is the mean. -/
theorem mean_or_zero_cons (x : ℚ) (xs : List ℚ) :
    mean_or_zero (x :: xs) = listMean (x :: xs) := by
  simp [mean_or_zero]

/-- Per-category mean confidences of the C7 frame. -/
theorem c7_conf_eval :
    mean_or_zero (bucket_confs c7_dets "gloves") = 1 ∧
    mean_or_zero (bucket_confs c7_dets "training arm") = 1 ∧
    mean_or_zero (bucket_confs c7_dets "syringe") = 1/3 := by
  have hg : canon_of c7_g = "gloves" := by decide
  have ha : canon_of c7_a = "training arm" := by decide
  have hs : canon_of c7_s = "syringe" := by decide
  have hbg : bucket_confs c7_dets "gloves" = [1, 1] := by
    simp [bucket_confs, bucket, c7_dets, hg, ha, hs]
    simp [c7_g]
  have hba : bucket_confs c7_dets "training arm" = [1] := by
    simp [bucket_confs, bucket, c7_dets, hg, ha, hs]
    simp [c7_a]
  have hbs : bucket_confs c7_dets "syringe" = [1/3] := by
    simp [bucket_confs, bucket, c7_dets, hg, ha, hs]
    simp [c7_s]
  refine ⟨?_, ?_, ?_⟩
  · rw [hbg, mean_or_zero_cons]; norm_num [listMean]
  · rw [hba, mean_or_zero_cons]; norm_num [listMean]
  · rw [hbs, mean_or_zero_cons]; norm_num [listMean]

/-- Full evaluation of the classifier on the C7 frame. -/
theorem c7_eval : process_single_frame c7_frame = ⟨"Injection", 3889/5000⟩ := by
  rw [psf_some rfl]
  show classify_dets 640 480 c7_dets = ⟨"Injection", 3889/5000⟩
  have hcon : 5 / 100 < (contact_with 640 480 c7_dets "syringe").1 := by
    have hfusion : glove_fusion c7_dets = (some {(1, 2)}, some ⟨0, 0, 1, 1⟩) := by
      decide
    have hsm : bucket_masks c7_dets "syringe" = [{(1, 2)}] := by decide
    have hsb : bucket_boxes c7_dets "syringe" = [⟨0, 0, 1, 1⟩] := by decide
    simp only [contact_with, hfusion, hsm, hsb, avg_contact,
      List.zip_cons_cons, List.zip_nil_right, List.map_cons, List.map_nil]
    rw [if_neg (List.cons_ne_nil _ _)]
    rw [c1_fused_iou_eval]
    norm_num [listMean]
  have h1 : 2 ≤ (bucket_masks c7_dets "gloves").length ∧
      bucket_masks c7_dets "training arm" ≠ [] ∧
      bucket_masks c7_dets "syringe" ≠ [] ∧
      (5 / 100 < (contact_with 640 480 c7_dets "syringe").1 ∨
        (contact_with 640 480 c7_dets "syringe").2 < 12 / 100) :=
    ⟨by decide, by decide, by decide, Or.inl hcon⟩
  simp only [classify_dets]
  rw [if_pos h1, if_pos rfl]
  rw [c7_conf_eval.1, c7_conf_eval.2.1, c7_conf_eval.2.2]
  have hlm : listMean [1, 1, (1/3 : ℚ)] = 7/9 := by norm_num [listMean]
  rw [hlm]
  have hfl : (⌊(7/9 : ℚ) * 10 ^ 4⌋ : ℤ) = 7777 := by norm_num
  have hpr : py_round ((7 : ℚ)/9) 4 = 3889/5000 := by
    simp only [py_round, round_half_even, hfl]
    norm_num
  rw [hpr]

/-- Counterexample for C7 as stated: on the C7 frame the winning activity is
`Injection` but the reported confidence is the rounded value `0.7778`, not
the exact mean of means `7/9`. -/
theorem spec_C7_cex :
    (process_single_frame c7_frame).activity = "Injection" ∧
    (process_single_frame c7_frame).confidence ≠
      listMean [mean_or_zero (bucket_confs c7_dets "gloves"),
        mean_or_zero (bucket_confs c7_dets "training arm"),
        mean_or_zero (bucket_confs c7_dets "syringe")] := by
  rw [c7_eval]
  refine ⟨rfl, ?_⟩
  rw [c7_conf_eval.1, c7_conf_eval.2.1, c7_conf_eval.2.2]
  norm_num [listMean]

/-- Witness for C7 (amended) at the C7 frame. -/
theorem spec_C7_witness :
    (process_single_frame c7_frame).confidence =
      py_round (listMean [mean_or_zero (bucket_confs c7_dets "gloves"),
        mean_or_zero (bucket_confs c7_dets "training arm"),
        mean_or_zero (bucket_confs c7_dets "syringe")]) 4 :=
  (spec_C7 c7_frame c7_dets rfl).1 (by rw [c7_eval])

/-- The C2 window: five frame results as in the spec's worked example. -/
def c2_results : List FrameResult :=
  [⟨"Injection", 9/10⟩, ⟨"Injection", 8/10⟩, ⟨"Injection", 7/10⟩,
   ⟨"No clear activity", 0⟩, ⟨"Tourniquet", 6/10⟩]

/-- The surviving results of the C2 window. -/
theorem c2_valid_eval :
    valid_results c2_results =
      [⟨"Injection", 9/10⟩, ⟨"Injection", 8/10⟩, ⟨"Injection", 7/10⟩,
       ⟨"Tourniquet", 6/10⟩] := by
  simp [valid_results, c2_results]

/-- The robust window confidence of the C2 window evaluates to `0.76`. -/
theorem c2_conf_eval :
    py_round_R
      (min (max (((listMean [(9:ℚ)/10, 8/10, 7/10] : ℚ) : ℝ) -
        1 / 2 * np_std [(9:ℚ)/10, 8/10, 7/10]) 0) 1) 2 = 76/100 := by
  have hmean : listMean [(9:ℚ)/10, 8/10, 7/10] = 4/5 := by norm_num [listMean]
  have hvar : listMean (([(9:ℚ)/10, 8/10, 7/10]).map
      (fun x => (x - listMean [(9:ℚ)/10, 8/10, 7/10]) ^ 2)) = 1/150 := by
    norm_num [listMean]
  have hstd : np_std [(9:ℚ)/10, 8/10, 7/10] = Real.sqrt (1/150 : ℝ) := by
    rw [np_std, hvar]
    congr 1
    push_cast
    norm_num
  have hs_ub : Real.sqrt (1/150 : ℝ) < 9/100 :=
    (Real.sqrt_lt' (by norm_num)).mpr (by norm_num)
  have hs_lb : (2/25 : ℝ) < Real.sqrt (1/150 : ℝ) :=
    (Real.lt_sqrt (by norm_num)).mpr (by norm_num)
  rw [hmean, hstd]
  have hcast : ((4/5 : ℚ) : ℝ) = 4/5 := by norm_num
  rw [hcast]
  have h0 : (0:ℝ) ≤ 4/5 - 1/2 * Real.sqrt (1/150 : ℝ) := by linarith
  have h1 : (4/5 : ℝ) - 1/2 * Real.sqrt (1/150 : ℝ) ≤ 1 := by linarith
  rw [max_eq_left h0, min_eq_left h1]
  have hfl : ⌊((4:ℝ)/5 - 1/2 * Real.sqrt (1/150 : ℝ)) * 10 ^ 2⌋ = (75:ℤ) := by
    rw [Int.floor_eq_iff]
    constructor
    · push_cast
      nlinarith [hs_ub]
    · push_cast
      nlinarith [hs_lb]
  have hc1 : ¬ (((4:ℝ)/5 - 1/2 * Real.sqrt (1/150 : ℝ)) * 10 ^ 2 -
      ((75:ℤ) : ℝ) < 1/2) := by
    push_cast
    nlinarith [hs_ub]
  have hc2 : (1/2 : ℝ) < ((4:ℝ)/5 - 1/2 * Real.sqrt (1/150 : ℝ)) * 10 ^ 2 -
      ((75:ℤ) : ℝ) := by
    push_cast
    nlinarith [hs_ub]
  rw [py_round_R]
  simp only [round_half_even_R, hfl]
  rw [if_neg hc1, if_pos hc2]
  norm_num

/-- C2: on the window `[Injection 0.9, Injection 0.8, Injection 0.7,
"No clear activity" 0.0, Tourniquet 0.6]` the aggregator discards the
unclear frame, elects `Injection` (3 of 4 surviving votes) and reports
`round(clip(mean - 0.5 * population_std, 0, 1), 2) = 0.76`. -/
theorem spec_C2 : aggregate_results c2_results = ⟨"Injection", 76/100⟩ := by
  have hne : valid_results c2_results ≠ [] := by
    rw [c2_valid_eval]
    simp
  have hmc : most_common1 (window_votes c2_results) = "Injection" := by decide
  simp only [aggregate_results, if_neg hne]
  rw [hmc]
  have hac : ((valid_results c2_results).filter
      (fun r => r.activity = "Injection")).map (fun r => r.confidence) =
      [(9:ℚ)/10, 8/10, 7/10] := by
    rw [c2_valid_eval]
    simp
  rw [hac, c2_conf_eval]

end Mmpmod
